import Mathlib

/-!
Verification of `src/coursework/wind.py`, a one-shot script that samples a
closed-form wind field on a 20×80 grid and renders it as a quiver plot saved
to `wind-field.pdf`.

The numeric part of the script is embedded over the real numbers, with numpy
arrays modelled as lists of lists of reals (`linspace`, `meshgrid`, and
elementwise maps mirror the corresponding numpy operations).  The plotting and
file-output calls are embedded as records of the arguments the script passes
to the library, together with a small filesystem model for the effect of the
final `savefig`.
-/

namespace Wind

noncomputable section

/-- `numpy.linspace(a, b, n)`: `n` evenly spaced samples from `a` to `b`
inclusive, sample `j` being `a + j·(b−a)/(n−1)`. -/
def linspace (a b : ℝ) (n : ℕ) : List ℝ :=
  (List.range n).map (fun (j : ℕ) => a + (j : ℝ) * (b - a) / ((n : ℝ) - 1))

/-- `x = numpy.linspace(0, 10, 80)`  (wind.py line 4). -/
def x : List ℝ := linspace 0 10 80

/-- `y = numpy.linspace(0, 1, 20)`  (wind.py line 5). -/
def y : List ℝ := linspace 0 1 20

/-- First result of `numpy.meshgrid(xs, ys)`: shape `(len ys, len xs)`,
with `X[i][j] = xs[j]` (row `i` is a copy of `xs`). -/
def meshgridX (xs ys : List ℝ) : List (List ℝ) :=
  ys.map (fun _ => xs)

/-- Second result of `numpy.meshgrid(xs, ys)`: shape `(len ys, len xs)`,
with `Y[i][j] = ys[i]` (row `i` is constant at `ys[i]`). -/
def meshgridY (xs ys : List ℝ) : List (List ℝ) :=
  ys.map (fun yi => xs.map (fun _ => yi))

/-- `X, Y = numpy.meshgrid(x, y)`  (wind.py line 7): first component. -/
def X : List (List ℝ) := meshgridX x y

/-- `X, Y = numpy.meshgrid(x, y)`  (wind.py line 7): second component. -/
def Y : List (List ℝ) := meshgridY x y

/-- Elementwise combination of two same-shaped 2-D arrays (numpy broadcasting
of a binary ufunc over two equal-shape arrays). -/
def emap2 (f : ℝ → ℝ → ℝ) (A B : List (List ℝ)) : List (List ℝ) :=
  List.zipWith (List.zipWith f) A B

/-- Elementwise map of a 2-D array (scalar broadcast / unary ufunc). -/
def emap (f : ℝ → ℝ) (A : List (List ℝ)) : List (List ℝ) :=
  A.map (List.map f)

/-- `U = 4*numpy.sin(2*numpy.pi*Y)*numpy.cos(numpy.pi*X/2)` (wind.py line 9),
elementwise over the mesh. -/
def U : List (List ℝ) :=
  emap2 (fun xv yv => 4 * Real.sin (2 * Real.pi * yv) * Real.cos (Real.pi * xv / 2)) X Y

/-- `V = -numpy.cos(2*numpy.pi*Y)*numpy.sin(numpy.pi*X/2)` (wind.py line 10),
elementwise over the mesh. -/
def V : List (List ℝ) :=
  emap2 (fun xv yv => -(Real.cos (2 * Real.pi * yv) * Real.sin (Real.pi * xv / 2))) X Y

/-- `numpy.sqrt(U**2 + V**2)` (wind.py line 14), the magnitude array the spec
calls `M`, computed elementwise and passed to `quiver` as its color argument. -/
def M : List (List ℝ) :=
  emap2 (fun u v => Real.sqrt (u ^ 2 + v ^ 2)) U V

/-- 2-D array indexing `A[i][j]` (defaulting out of range, which never occurs
at the indices the theorems use). -/
def get2 (A : List (List ℝ)) (i j : ℕ) : ℝ :=
  (A.getD i []).getD j 0

/-- `A` is an `m × n` array: `m` rows, each of length `n`. -/
def hasShape (A : List (List ℝ)) (m n : ℕ) : Prop :=
  A.length = m ∧ ∀ row ∈ A, row.length = n

/- ### The rendering and output calls, embedded as the argument records the
script passes to matplotlib. -/

/-- A text artist with a font size, as produced by `set_xlabel`/`set_ylabel`. -/
structure Label where
  text : String
  fontsize : ℝ

/-- The positional arguments of `ax.quiver(X, Y, U, V, C)`: arrow positions
`(xpos, ypos)`, arrow direction components `(u, v)`, and the color array. -/
structure QuiverArgs where
  xpos : List (List ℝ)
  ypos : List (List ℝ)
  u : List (List ℝ)
  v : List (List ℝ)
  color : List (List ℝ)

/-- The state of the single axes object `ax` after lines 13–16 of wind.py:
one quiver call, both axis labels set, and the matplotlib defaults of no
title and no legend left untouched. -/
structure AxesState where
  quivers : List QuiverArgs
  xlabel : Option Label
  ylabel : Option Label
  title : Option Label
  legend : Bool

/-- The figure created by `pyplot.figure(figsize=(10, 2), frameon=True)`
together with its axes. -/
structure FigureState where
  figwidth : ℝ
  figheight : ℝ
  frameon : Bool
  axes : List AxesState

/-- The arguments of the single `fig.savefig(...)` call (wind.py lines 17–21). -/
structure SavefigArgs where
  fname : String
  orientation : String
  format : String
  transparent : Bool
  bboxInches : String
  bboxExtraArtists : List Label

/-- `ax.quiver(X, Y, 0.25*U, V, numpy.sqrt(U**2 + V**2))` (wind.py line 14):
positions `(X, Y)`, directions `(0.25·U, V)`, color array `M`. -/
def quiverCall : QuiverArgs :=
  { xpos := X
    ypos := Y
    u := emap (fun t => 0.25 * t) U
    v := V
    color := M }

/-- `ax.set_xlabel("$x$", fontsize=14)` (wind.py line 16). -/
def xlabelArtist : Label := { text := "$x$", fontsize := 14 }

/-- `ax.set_ylabel("$y$", fontsize=14)` (wind.py line 15). -/
def ylabelArtist : Label := { text := "$y$", fontsize := 14 }

/-- The axes after the quiver and label calls; the script never sets a title
or a legend, so both keep their matplotlib defaults. -/
def ax : AxesState :=
  { quivers := [quiverCall]
    xlabel := some xlabelArtist
    ylabel := some ylabelArtist
    title := none
    legend := false }

/-- `fig = pyplot.figure(figsize=(10, 2), frameon=True)` holding the single
subplot added by `fig.add_subplot(1, 1, 1)` (wind.py lines 12–13). -/
def fig : FigureState :=
  { figwidth := 10
    figheight := 2
    frameon := true
    axes := [ax] }

/-- `bbox_artists = [ax.set_xlabel("$x$", fontsize=14)]` (wind.py line 16). -/
def bbox_artists : List Label := [xlabelArtist]

/-- The keyword arguments of `fig.savefig` (wind.py lines 17–21). -/
def savefigCall : SavefigArgs :=
  { fname := "wind-field.pdf"
    orientation := "landscape"
    format := "pdf"
    transparent := true
    bboxInches := "tight"
    bboxExtraArtists := bbox_artists }

/-- The file-write calls the script issues: exactly the one `savefig`. -/
def filesWritten : List SavefigArgs := [savefigCall]

/-- The file-read calls the script issues: none. -/
def filesRead : List String := []

/-- Effect of the script on a filesystem (a map from file name to contents):
`savefig` opens its target for writing unconditionally, so the named file is
replaced by the rendered document and every other name is left untouched.
`content` stands for the PDF document matplotlib renders, which is opaque to
this script. -/
def runFilesystem (fsys : String → Option String) (content : String) :
    String → Option String :=
  fun name => if name = savefigCall.fname then some content else fsys name

/-- The ambient inputs a process could in principle consume. -/
structure Environment where
  argv : List String
  envVars : String → Option String
  stdin : String
  fileContents : String → Option String
  entropy : ℕ → ℕ

/-- The numeric computation of wind.py (lines 4–14) as a function of the
ambient environment: the script consumes no command-line arguments,
environment variables, input, files, or randomness, so the result ignores
the environment. -/
def computeArrays (_e : Environment) :
    List (List ℝ) × List (List ℝ) × List (List ℝ) × List (List ℝ) × List (List ℝ) :=
  (X, Y, U, V, M)

/-- One run of the script against a filesystem whose writability at the
output path is `writable`.  The grid construction, field evaluation, and
rendering are total pure values; the only fallible step is the final
`savefig`, which raises the underlying library error when the output path is
not writable.  The script installs no handler, so the error propagates;
there is no retry and no recovery (`savefig` is called exactly once). -/
def runScript (writable : Bool) : Except String SavefigArgs :=
  if writable then Except.ok savefigCall else Except.error "PermissionError"

/- ### Basic access lemmas for the embedded arrays -/

lemma length_x : x.length = 80 := by
  rw [x, linspace, List.length_map, List.length_range]

lemma length_y : y.length = 20 := by
  rw [y, linspace, List.length_map, List.length_range]

lemma x_getD (j : ℕ) (hj : j < 80) : x.getD j 0 = 10 * j / 79 := by
  have h : j < x.length := by rw [length_x]; exact hj
  rw [List.getD_eq_getElem _ _ h]
  simp only [x, linspace, List.getElem_map, List.getElem_range]
  push_cast
  ring

lemma y_getD (i : ℕ) (hi : i < 20) : y.getD i 0 = i / 19 := by
  have h : i < y.length := by rw [length_y]; exact hi
  rw [List.getD_eq_getElem _ _ h]
  simp only [y, linspace, List.getElem_map, List.getElem_range]
  push_cast
  ring

lemma X_get2 (i j : ℕ) (hi : i < 20) (_hj : j < 80) :
    get2 X i j = x.getD j 0 := by
  have h : i < (y.map (fun _ => x)).length := by
    rw [List.length_map, length_y]; exact hi
  rw [get2, X, meshgridX, List.getD_eq_getElem _ _ h]
  simp only [List.getElem_map]

lemma Y_get2 (i j : ℕ) (hi : i < 20) (hj : j < 80) :
    get2 Y i j = y.getD i 0 := by
  have hi' : i < y.length := by rw [length_y]; exact hi
  have hj' : j < x.length := by rw [length_x]; exact hj
  have h : i < (y.map (fun yi => x.map (fun _ => yi))).length := by
    rw [List.length_map]; exact hi'
  rw [get2, Y, meshgridY, List.getD_eq_getElem _ _ h,
    List.getD_eq_getElem y 0 hi']
  simp only [List.getElem_map]
  have h2 : j < (x.map (fun _ => y[i])).length := by
    rw [List.length_map]; exact hj'
  rw [List.getD_eq_getElem _ _ h2, List.getElem_map]

lemma length_X : X.length = 20 := by
  rw [X, meshgridX, List.length_map, length_y]

lemma length_Y : Y.length = 20 := by
  rw [Y, meshgridY, List.length_map, length_y]

lemma row_X (i : ℕ) (hi : i < 20) : (X.getD i []).length = 80 := by
  have h : i < X.length := by rw [length_X]; exact hi
  rw [List.getD_eq_getElem _ _ h]
  simp only [X, meshgridX, List.getElem_map]
  exact length_x

lemma row_Y (i : ℕ) (hi : i < 20) : (Y.getD i []).length = 80 := by
  have h : i < Y.length := by rw [length_Y]; exact hi
  rw [List.getD_eq_getElem _ _ h]
  simp only [Y, meshgridY, List.getElem_map, List.length_map]
  exact length_x

/-- Indexing through an elementwise binary operation. -/
lemma get2_emap2 (f : ℝ → ℝ → ℝ) (A B : List (List ℝ)) (i j : ℕ)
    (hiA : i < A.length) (hiB : i < B.length)
    (hjA : j < (A.getD i []).length) (hjB : j < (B.getD i []).length) :
    get2 (emap2 f A B) i j = f (get2 A i j) (get2 B i j) := by
  have hjA' : j < (A[i]).length := by
    rwa [List.getD_eq_getElem _ _ hiA] at hjA
  have hjB' : j < (B[i]).length := by
    rwa [List.getD_eq_getElem _ _ hiB] at hjB
  have hlen : i < (List.zipWith (List.zipWith f) A B).length := by
    rw [List.length_zipWith]; exact lt_min hiA hiB
  rw [get2, get2, get2, emap2, List.getD_eq_getElem _ _ hlen, List.getElem_zipWith]
  have h2 : j < (List.zipWith f A[i] B[i]).length := by
    rw [List.length_zipWith]; exact lt_min hjA' hjB'
  rw [List.getD_eq_getElem _ _ h2, List.getElem_zipWith,
    List.getD_eq_getElem A _ hiA, List.getD_eq_getElem B _ hiB,
    List.getD_eq_getElem _ _ hjA', List.getD_eq_getElem _ _ hjB']

lemma length_emap2 (f : ℝ → ℝ → ℝ) (A B : List (List ℝ)) :
    (emap2 f A B).length = min A.length B.length := by
  rw [emap2, List.length_zipWith]

lemma row_emap2 (f : ℝ → ℝ → ℝ) (A B : List (List ℝ)) (i : ℕ)
    (hiA : i < A.length) (hiB : i < B.length) :
    ((emap2 f A B).getD i []).length =
      min (A.getD i []).length (B.getD i []).length := by
  have hlen : i < (List.zipWith (List.zipWith f) A B).length := by
    rw [List.length_zipWith]; exact lt_min hiA hiB
  rw [emap2, List.getD_eq_getElem _ _ hlen, List.getElem_zipWith, List.length_zipWith,
    List.getD_eq_getElem A _ hiA, List.getD_eq_getElem B _ hiB]

lemma length_U : U.length = 20 := by
  rw [U, length_emap2, length_X, length_Y, min_self]

lemma length_V : V.length = 20 := by
  rw [V, length_emap2, length_X, length_Y, min_self]

lemma length_M : M.length = 20 := by
  rw [M, length_emap2, length_U, length_V, min_self]

lemma row_U (i : ℕ) (hi : i < 20) : (U.getD i []).length = 80 := by
  have hX : i < X.length := by rw [length_X]; exact hi
  have hY : i < Y.length := by rw [length_Y]; exact hi
  rw [U, row_emap2 _ _ _ _ hX hY, row_X i hi, row_Y i hi, min_self]

lemma row_V (i : ℕ) (hi : i < 20) : (V.getD i []).length = 80 := by
  have hX : i < X.length := by rw [length_X]; exact hi
  have hY : i < Y.length := by rw [length_Y]; exact hi
  rw [V, row_emap2 _ _ _ _ hX hY, row_X i hi, row_Y i hi, min_self]

lemma row_M (i : ℕ) (hi : i < 20) : (M.getD i []).length = 80 := by
  have hU : i < U.length := by rw [length_U]; exact hi
  have hV : i < V.length := by rw [length_V]; exact hi
  rw [M, row_emap2 _ _ _ _ hU hV, row_U i hi, row_V i hi, min_self]

/-- Pointwise value of `U` in terms of the mesh entries. -/
lemma U_get2 (i j : ℕ) (hi : i < 20) (hj : j < 80) :
    get2 U i j =
      4 * Real.sin (2 * Real.pi * get2 Y i j) * Real.cos (Real.pi * get2 X i j / 2) := by
  have hX : i < X.length := by rw [length_X]; exact hi
  have hY : i < Y.length := by rw [length_Y]; exact hi
  have hjX : j < (X.getD i []).length := by rw [row_X i hi]; exact hj
  have hjY : j < (Y.getD i []).length := by rw [row_Y i hi]; exact hj
  rw [U, get2_emap2 _ _ _ _ _ hX hY hjX hjY]

/-- Pointwise value of `V` in terms of the mesh entries. -/
lemma V_get2 (i j : ℕ) (hi : i < 20) (hj : j < 80) :
    get2 V i j =
      -(Real.cos (2 * Real.pi * get2 Y i j) * Real.sin (Real.pi * get2 X i j / 2)) := by
  have hX : i < X.length := by rw [length_X]; exact hi
  have hY : i < Y.length := by rw [length_Y]; exact hi
  have hjX : j < (X.getD i []).length := by rw [row_X i hi]; exact hj
  have hjY : j < (Y.getD i []).length := by rw [row_Y i hi]; exact hj
  rw [V, get2_emap2 _ _ _ _ _ hX hY hjX hjY]

/-- Pointwise value of `M` in terms of the field entries. -/
lemma M_get2 (i j : ℕ) (hi : i < 20) (hj : j < 80) :
    get2 M i j = Real.sqrt (get2 U i j ^ 2 + get2 V i j ^ 2) := by
  have hU : i < U.length := by rw [length_U]; exact hi
  have hV : i < V.length := by rw [length_V]; exact hi
  have hjU : j < (U.getD i []).length := by rw [row_U i hi]; exact hj
  have hjV : j < (V.getD i []).length := by rw [row_V i hi]; exact hj
  rw [M, get2_emap2 _ _ _ _ _ hU hV hjU hjV]

/-- Indexing through an elementwise unary operation. -/
lemma get2_emap (f : ℝ → ℝ) (A : List (List ℝ)) (i j : ℕ)
    (hiA : i < A.length) (hjA : j < (A.getD i []).length) :
    get2 (emap f A) i j = f (get2 A i j) := by
  have hjA' : j < (A[i]).length := by
    rwa [List.getD_eq_getElem _ _ hiA] at hjA
  have hlen : i < (A.map (List.map f)).length := by
    rw [List.length_map]; exact hiA
  rw [get2, get2, emap, List.getD_eq_getElem _ _ hlen, List.getElem_map]
  have h2 : j < ((A[i]).map f).length := by
    rw [List.length_map]; exact hjA'
  rw [List.getD_eq_getElem _ _ h2, List.getElem_map,
    List.getD_eq_getElem A _ hiA, List.getD_eq_getElem _ _ hjA']

/-- An array whose length and row lengths are known has the matching shape. -/
lemma hasShape_of_rows (A : List (List ℝ)) (m n : ℕ) (hlen : A.length = m)
    (hrow : ∀ i, i < m → (A.getD i []).length = n) : hasShape A m n := by
  refine ⟨hlen, fun row hr => ?_⟩
  obtain ⟨k, hk, rfl⟩ := List.mem_iff_getElem.mp hr
  have hk' : k < m := by rwa [hlen] at hk
  have h := hrow k hk'
  rwa [List.getD_eq_getElem _ _ hk] at h

/- ### Claim theorems -/

/-- **C1.** For every grid index `(i, j)` with `0 ≤ i < 20` and `0 ≤ j < 80`,
the field arrays satisfy `U[i][j] = 4·sin(2π·Y[i][j])·cos(π·X[i][j]/2)` and
`V[i][j] = −cos(2π·Y[i][j])·sin(π·X[i][j]/2)`, evaluated elementwise over the
coordinate mesh. -/
theorem claim1_field_formula_exact (i : Fin 20) (j : Fin 80) :
    get2 U i j =
      4 * Real.sin (2 * Real.pi * get2 Y i j) * Real.cos (Real.pi * get2 X i j / 2) ∧
    get2 V i j =
      -Real.cos (2 * Real.pi * get2 Y i j) * Real.sin (Real.pi * get2 X i j / 2) := by
  refine ⟨U_get2 i j i.isLt j.isLt, ?_⟩
  rw [V_get2 i j i.isLt j.isLt, neg_mul]

/-- **C2.** The grid construction produces `x` as 80 evenly spaced samples
over `[0, 10]` (sample `j` at `10·j/79`) and `y` as 20 evenly spaced samples
over `[0, 1]` (sample `i` at `i/19`), builds meshes with `X[i][j] = x[j]` and
`Y[i][j] = y[i]`, and `X`, `Y`, `U`, `V`, `M` all have shape `(20, 80)`. -/
theorem claim2_grid_construction :
    x.length = 80 ∧ y.length = 20 ∧
    (∀ j : Fin 80, x.getD j 0 = 10 * (j : ℝ) / 79) ∧
    (∀ i : Fin 20, y.getD i 0 = (i : ℝ) / 19) ∧
    (∀ (i : Fin 20) (j : Fin 80), get2 X i j = x.getD j 0 ∧ get2 Y i j = y.getD i 0) ∧
    hasShape X 20 80 ∧ hasShape Y 20 80 ∧ hasShape U 20 80 ∧
    hasShape V 20 80 ∧ hasShape M 20 80 :=
  ⟨length_x, length_y, fun j => x_getD j j.isLt, fun i => y_getD i i.isLt,
    fun i j => ⟨X_get2 i j i.isLt j.isLt, Y_get2 i j i.isLt j.isLt⟩,
    hasShape_of_rows _ _ _ length_X row_X,
    hasShape_of_rows _ _ _ length_Y row_Y,
    hasShape_of_rows _ _ _ length_U row_U,
    hasShape_of_rows _ _ _ length_V row_V,
    hasShape_of_rows _ _ _ length_M row_M⟩

/-- **C3.** For every grid index, the color array passed to the quiver call
satisfies `M[i][j] = sqrt(U[i][j]² + V[i][j]²)`, and `M` enters only the
color-slot of the call: the arrow-geometry slots are exactly `X`, `Y`,
`0.25·U`, and `V`. -/
theorem claim3_magnitude_color_only :
    (∀ (i : Fin 20) (j : Fin 80),
      get2 quiverCall.color i j = Real.sqrt (get2 U i j ^ 2 + get2 V i j ^ 2)) ∧
    quiverCall.color = M ∧ quiverCall.xpos = X ∧ quiverCall.ypos = Y ∧
    quiverCall.u = emap (fun t => 0.25 * t) U ∧ quiverCall.v = V :=
  ⟨fun i j => M_get2 i j i.isLt j.isLt, rfl, rfl, rfl, rfl, rfl⟩

/-- **C4.** The render step draws exactly one quiver plot, positioned at
`(X, Y)` with direction components `(0.25·U, V)` — the x-component scaled by
`0.25`, the y-component unscaled — on one figure of 10×2 inches with an
opaque frame, with both axis labels set and no title or legend. -/
theorem claim4_render_step :
    fig.axes = [ax] ∧ ax.quivers = [quiverCall] ∧
    quiverCall.xpos = X ∧ quiverCall.ypos = Y ∧
    (∀ (i : Fin 20) (j : Fin 80), get2 quiverCall.u i j = 0.25 * get2 U i j) ∧
    quiverCall.v = V ∧
    fig.figwidth = 10 ∧ fig.figheight = 2 ∧ fig.frameon = true ∧
    ax.xlabel = some xlabelArtist ∧ ax.ylabel = some ylabelArtist ∧
    ax.title = none ∧ ax.legend = false := by
  refine ⟨rfl, rfl, rfl, rfl, fun i j => ?_, rfl, rfl, rfl, rfl, rfl, rfl, rfl, rfl⟩
  have hU : (i : ℕ) < U.length := by rw [length_U]; exact i.isLt
  have hjU : (j : ℕ) < (U.getD i []).length := by rw [row_U i i.isLt]; exact j.isLt
  exact get2_emap _ U i j hU hjU

/-- **C5.** The single `savefig` call writes exactly one file, named
`wind-field.pdf`, replacing any existing file of that name unconditionally
and touching no other name, with PDF format, landscape orientation,
transparent background, and a tight bounding box extended by the x-label
artist; the script reads no file. -/
theorem claim5_output_contract (fsys : String → Option String) (content : String) :
    runFilesystem fsys content "wind-field.pdf" = some content ∧
    (∀ name : String, runFilesystem fsys content name =
      if name = "wind-field.pdf" then some content else fsys name) ∧
    filesWritten = [savefigCall] ∧ filesRead = [] ∧
    savefigCall.fname = "wind-field.pdf" ∧ savefigCall.format = "pdf" ∧
    savefigCall.orientation = "landscape" ∧ savefigCall.transparent = true ∧
    savefigCall.bboxInches = "tight" ∧
    savefigCall.bboxExtraArtists = [xlabelArtist] := by
  refine ⟨?_, fun name => rfl, rfl, rfl, rfl, rfl, rfl, rfl, rfl, rfl⟩
  simp [runFilesystem, savefigCall]

/-- **C6.** The coordinate mesh attains the exact linear-spacing endpoints:
for every row `i`, `X[i][0] = 0` and `X[i][79] = 10`, and for every column
`j`, `Y[0][j] = 0` and `Y[19][j] = 1`. -/
theorem claim6_grid_endpoints :
    (∀ i : Fin 20, get2 X i 0 = 0 ∧ get2 X i 79 = 10) ∧
    (∀ j : Fin 80, get2 Y 0 j = 0 ∧ get2 Y 19 j = 1) := by
  constructor
  · intro i
    constructor
    · rw [X_get2 i 0 i.isLt (by norm_num), x_getD 0 (by norm_num)]
      norm_num
    · rw [X_get2 i 79 i.isLt (by norm_num), x_getD 79 (by norm_num)]
      norm_num
  · intro j
    constructor
    · rw [Y_get2 0 j (by norm_num) j.isLt, y_getD 0 (by norm_num)]
      norm_num
    · rw [Y_get2 19 j (by norm_num) j.isLt, y_getD 19 (by norm_num)]
      norm_num

/-- **C7.** The computation is deterministic: runs against any two ambient
environments (the script takes no external input) produce identical arrays
`X, Y, U, V, M`. -/
theorem claim7_determinism (e₁ e₂ : Environment) :
    computeArrays e₁ = computeArrays e₂ := rfl

/-- **C8.** The run fails exactly when the output path is not writable, in
which case the underlying library error propagates (the script installs no
handler and does not retry); the grid construction and field evaluation are
total and error-free. -/
theorem claim8_error_propagation :
    (∀ w : Bool, (∃ r, runScript w = Except.ok r) ↔ w = true) ∧
    runScript false = Except.error "PermissionError" ∧
    (∀ e : Environment, computeArrays e = (X, Y, U, V, M)) := by
  refine ⟨fun w => ?_, rfl, fun e => rfl⟩
  cases w
  · simp [runScript]
  · simp [runScript]

/-- **C9.** The vector field vanishes componentwise on the boundary lines
`x = 0` and `y = 0`: for every row `i`, `V[i][0] = 0`, and for every column
`j`, `U[0][j] = 0`. -/
theorem claim9_boundary_vanishing :
    (∀ i : Fin 20, get2 V i 0 = 0) ∧ (∀ j : Fin 80, get2 U 0 j = 0) := by
  constructor
  · intro i
    rw [V_get2 i 0 i.isLt (by norm_num), X_get2 i 0 i.isLt (by norm_num),
      x_getD 0 (by norm_num)]
    norm_num
  · intro j
    rw [U_get2 0 j (by norm_num) j.isLt, Y_get2 0 j (by norm_num) j.isLt,
      y_getD 0 (by norm_num)]
    norm_num

/-- **C10.** The magnitude array is non-negative and bounded: for every grid
index, `0 ≤ M[i][j] ≤ sqrt 17`, because `|U[i][j]| ≤ 4` and `|V[i][j]| ≤ 1`
by the trigonometric formulas. -/
theorem claim10_magnitude_bounds (i : Fin 20) (j : Fin 80) :
    |get2 U i j| ≤ 4 ∧ |get2 V i j| ≤ 1 ∧
    0 ≤ get2 M i j ∧ get2 M i j ≤ Real.sqrt 17 := by
  have hU : |get2 U i j| ≤ 4 := by
    rw [U_get2 i j i.isLt j.isLt]
    have hs : |Real.sin (2 * Real.pi * get2 Y i j)| ≤ 1 :=
      abs_le.mpr ⟨Real.neg_one_le_sin _, Real.sin_le_one _⟩
    have hc : |Real.cos (Real.pi * get2 X i j / 2)| ≤ 1 :=
      abs_le.mpr ⟨Real.neg_one_le_cos _, Real.cos_le_one _⟩
    rw [abs_mul, abs_mul]
    have h4 : |(4 : ℝ)| = 4 := by norm_num
    rw [h4]
    nlinarith [abs_nonneg (Real.sin (2 * Real.pi * get2 Y i j)),
      abs_nonneg (Real.cos (Real.pi * get2 X i j / 2))]
  have hV : |get2 V i j| ≤ 1 := by
    rw [V_get2 i j i.isLt j.isLt, abs_neg, abs_mul]
    have hs : |Real.sin (Real.pi * get2 X i j / 2)| ≤ 1 :=
      abs_le.mpr ⟨Real.neg_one_le_sin _, Real.sin_le_one _⟩
    have hc : |Real.cos (2 * Real.pi * get2 Y i j)| ≤ 1 :=
      abs_le.mpr ⟨Real.neg_one_le_cos _, Real.cos_le_one _⟩
    nlinarith [abs_nonneg (Real.sin (Real.pi * get2 X i j / 2)),
      abs_nonneg (Real.cos (2 * Real.pi * get2 Y i j))]
  refine ⟨hU, hV, ?_, ?_⟩
  · rw [M_get2 i j i.isLt j.isLt]
    exact Real.sqrt_nonneg _
  · rw [M_get2 i j i.isLt j.isLt]
    have hsum : get2 U i j ^ 2 + get2 V i j ^ 2 ≤ 17 := by
      have h1 : get2 U i j ^ 2 ≤ 16 := by
        nlinarith [hU, abs_nonneg (get2 U i j), sq_abs (get2 U i j)]
      have h2 : get2 V i j ^ 2 ≤ 1 := by
        nlinarith [hV, abs_nonneg (get2 V i j), sq_abs (get2 V i j)]
      linarith
    exact Real.sqrt_le_sqrt hsum

end

end Wind
